import Mathlib

/-!
Shallow embedding of the shdwdrive-v2-cli SDK (`src/sdk/shdw-drive.ts`).

The SDK class `ShdwDriveSDK` performs sequential, deterministic network
round-trips.  Each operation is modelled as a pure function from an explicit
record of server responses (the "net" parameters below) to the trace of
requests it issues, the progress values it reports, and its outcome
(`Except` models a thrown `Error`).  Machine arithmetic on sizes uses `Nat`
(JavaScript numbers are exact for the byte counts involved); the fractional
progress values are modelled exactly as `ℚ`.

External cryptographic collaborators (crypto-js `SHA256`, the tweetnacl
detached signature, the signer public key) are deterministic functions of
their input and are passed in as the `Ctx` record, mirroring how the TS code
delegates to those libraries.
-/

namespace ShdwDrive

/-- Line 6 of the source: `const CHUNK_SIZE = 5 * 1024 * 1024`. -/
def CHUNK_SIZE : Nat := 5 * 1024 * 1024

/-- A web `File` as the SDK consumes it: `name`, `size` and the byte
content that `file.slice` reads.  For a real `File` object, `size` equals
`content.length`; the flow functions below read only `size`/`name`/slices,
exactly like the source. -/
structure File where
  name : String
  size : Nat
  content : List Nat
deriving DecidableEq

/-- A value appended to a `FormData`: either raw file/blob bytes or a string. -/
inductive FormValue
  | file (f : File)
  | blob (bytes : List Nat)
  | str (s : String)
deriving DecidableEq

/-- One network request the SDK issues, by endpoint, with the data relevant
to the claims: the exact message handed to `signMessage` and the form/body
fields. -/
inductive Req
  | objectUpload (messageToSign : String) (form : List (String × FormValue))
  | multipartCreate (messageToSign : String)
  | uploadPart (partNumber : Nat) (chunk : List Nat)
  | multipartComplete (parts : List (String × Nat))
  | objectList
  | objectDelete (messageToSign : String) (signature : String)
deriving DecidableEq

/-- `FileUploadProgress.status` (source lines 13–16): the union type
declares three members, `'uploading' | 'complete' | 'error'`. -/
inductive Status
  | uploading
  | complete
  | error
deriving DecidableEq

/-- A progress event delivered to the caller-supplied `onProgress` callback. -/
structure FileUploadProgress where
  status : Status
  progress : ℚ
deriving DecidableEq

/-- The deterministic external collaborators of the SDK instance:
crypto-js `SHA256(·).toString()`, `signMessage` (tweetnacl detached
signature, base58-encoded) and `getSigner()` (the public key string). -/
structure Ctx where
  sha256hex : String → String
  sign : String → String
  signer : String

/-- Server behaviour for the single `POST /v1/object/upload` call:
2xx with a parseable body carrying `finalized_location`, 2xx whose body
`response.json()` fails to parse, or non-2xx (with `msg` the error message
the source assembles from the response, lines 120–136). -/
inductive HttpOutcome
  | ok (loc : String)
  | okBadBody
  | fail (msg : String)

/-- Server behaviour for one multipart upload: `create` is
`some (uploadId, key)` when the init call succeeds and `none` when it fails
(non-2xx; `createError` is the parsed body's `error` field), `part n` is
`some ETag` when the upload of part `n` succeeds, `complete` is
`some finalized_location` when the completion call succeeds. -/
structure MultipartNet where
  create : Option (String × String)
  createError : Option String
  part : Nat → Option String
  complete : Option String
  completeError : Option String

/-- Server behaviour for a whole `uploadFile` call (only one of the two
sides is consulted, by file size). -/
structure UploadNet where
  small : HttpOutcome
  large : MultipartNet

/-- Source line 174: `const totalParts = Math.ceil(file.size / CHUNK_SIZE)`,
as the exact ceiling division on `Nat`. -/
def totalParts (size : Nat) : Nat := (size + CHUNK_SIZE - 1) / CHUNK_SIZE

/-- Source lines 179–181: the bytes of part `partNumber`.
`start = (partNumber - 1) * CHUNK_SIZE`, `stop = min (start + CHUNK_SIZE)
file.size` and the chunk is `file.slice(start, stop)`, i.e. the bytes in
positions `[start, stop)`. -/
def partChunk (f : File) (partNumber : Nat) : List Nat :=
  let start := (partNumber - 1) * CHUNK_SIZE
  let stop := min (start + CHUNK_SIZE) f.size
  (f.content.take stop).drop start

/-- Source lines 178–209, the `for (let partNumber = 1; partNumber <=
totalParts; partNumber++)` loop, as a traversal of the list of part numbers.
For each part the SDK posts the chunk; a non-2xx response aborts with
`Failed to upload part n`; on success the `(ETag, PartNumber)` pair is
appended and `(partNumber / totalParts) * 90` is reported. -/
def uploadParts (net : MultipartNet) (f : File) (total : Nat) :
    List Nat → List Req × List ℚ × Except String (List (String × Nat))
  | [] => ([], [], Except.ok [])
  | p :: rest =>
    let chunk := partChunk f p
    match net.part p with
    | none =>
        ([Req.uploadPart p chunk], [],
         Except.error ("Failed to upload part " ++ toString p))
    | some etag =>
        let r := uploadParts net f total rest
        (Req.uploadPart p chunk :: r.1,
         ((p : ℚ) / (total : ℚ)) * 90 :: r.2.1,
         match r.2.2 with
         | Except.error e => Except.error e
         | Except.ok parts => Except.ok ((etag, p) :: parts))

/-- Source line 104: the canonical message the single-request path signs. -/
def smallFileMessage (ctx : Ctx) (bucket : String) (f : File) : String :=
  "shdwDrive Signed Message:\nStorage Account: " ++ bucket ++
    "\nUpload file with hash: " ++ ctx.sha256hex f.name

/-- Source lines 95–140, `uploadSmallFile`: hash the file NAME, build and
sign the canonical message, POST one multipart form with fields
`file`, `message` (the signature), `signer`, `storage_account`
(lines 109–113), and return the parsed body or throw.  It never calls
`onProgress`, so its progress trace is empty. -/
def uploadSmallFile (ctx : Ctx) (net : HttpOutcome) (bucket : String)
    (f : File) : List Req × List ℚ × Except String String :=
  let messageToSign := smallFileMessage ctx bucket f
  let signature := ctx.sign messageToSign
  let req := Req.objectUpload messageToSign
    [("file", FormValue.file f), ("message", FormValue.str signature),
     ("signer", FormValue.str ctx.signer),
     ("storage_account", FormValue.str bucket)]
  match net with
  | HttpOutcome.ok loc => ([req], [], Except.ok loc)
  | HttpOutcome.okBadBody =>
      ([req], [], Except.error "Failed to parse upload response")
  | HttpOutcome.fail msg => ([req], [], Except.error msg)

/-- Source line 148: the message signed for the multipart init request. -/
def initMessage (bucket : String) (f : File) : String :=
  "shdwDrive Signed Message:\nInitialize multipart upload\nBucket: " ++
    bucket ++ "\nFilename: " ++ f.name ++ "\nFile size: " ++ toString f.size

/-- Source lines 142–234, `uploadLargeFile`: one signed init POST; on
success, each part posted sequentially in ascending order with progress
`(partNumber / totalParts) * 90` after each; then one completion POST
carrying the ordered `(ETag, PartNumber)` list; `onProgress(100)` only
after a successful completion. -/
def uploadLargeFile (net : MultipartNet) (bucket : String) (f : File) :
    List Req × List ℚ × Except String String :=
  let createReq := Req.multipartCreate (initMessage bucket f)
  match net.create with
  | none =>
      ([createReq], [],
       Except.error (net.createError.getD "Failed to initialize multipart upload"))
  | some _idKey =>
    let total := totalParts f.size
    let r := uploadParts net f total (List.range' 1 total)
    match r.2.2 with
    | Except.error e => (createReq :: r.1, r.2.1, Except.error e)
    | Except.ok parts =>
      match net.complete with
      | none =>
          (createReq :: r.1 ++ [Req.multipartComplete parts], r.2.1,
           Except.error (net.completeError.getD "Failed to complete multipart upload"))
      | some loc =>
          (createReq :: r.1 ++ [Req.multipartComplete parts], r.2.1 ++ [100],
           Except.ok loc)

/-- Source lines 63–93, `uploadFile`: choose the path by
`file.size <= CHUNK_SIZE`; `updateProgress` wraps every reported number as a
`status: 'uploading'` event; the `catch` block emits one
`status: 'error', progress: 0` event and rethrows. -/
def uploadFile (ctx : Ctx) (net : UploadNet) (bucket : String) (f : File) :
    List Req × List FileUploadProgress × Except String String :=
  let r := if f.size ≤ CHUNK_SIZE
    then uploadSmallFile ctx net.small bucket f
    else uploadLargeFile net.large bucket f
  match r.2.2 with
  | Except.ok loc =>
      (r.1, r.2.1.map fun p => ⟨Status.uploading, p⟩, Except.ok loc)
  | Except.error e =>
      (r.1, (r.2.1.map fun p => ⟨Status.uploading, p⟩) ++ [⟨Status.error, 0⟩],
       Except.error e)

/-- Server behaviour for the `POST /v1/object/list` precheck, covering every
outcome the source distinguishes (lines 239–257): the fetch itself threw, a
non-2xx status, a 2xx body that `response.json()` cannot parse, or a parsed
body whose `objects` field is absent (`none`) or is the list of object keys. -/
inductive ListResponse
  | netError
  | notOk
  | badBody
  | objects (objs : Option (List String))

/-- Source lines 236–258, `fileExists`: everything after the fetch sits in a
`try` whose `catch` returns `false`; a non-2xx response returns `false`;
`data.objects?.some(obj => obj.key === filename) ?? false` otherwise. -/
def fileExists (resp : ListResponse) (filename : String) : Bool :=
  match resp with
  | ListResponse.netError => false
  | ListResponse.notOk => false
  | ListResponse.badBody => false
  | ListResponse.objects none => false
  | ListResponse.objects (some keys) => keys.contains filename

/-- Server behaviour for the `POST /v1/object/delete` call: a body
`response.json()` cannot parse, or a parsed body with the response status
(`ok`), its `error` field and its `message` field. -/
inductive DeleteServerResponse
  | badBody
  | parsed (ok : Bool) (error : Option String) (message : Option String)

/-- The two server round-trips a `deleteFile` call can make. -/
structure DeleteNet where
  listing : ListResponse
  delete : DeleteServerResponse

/-- Source lines 287–290: the canonical delete message. -/
def deleteMessage (bucket filename : String) : String :=
  "shdwDrive Signed Message:\nDelete file\nBucket: " ++ bucket ++
    "\nFilename: " ++ filename

/-- The `{ message, success }` object `deleteFile` resolves with. -/
structure DeleteResult where
  message : String
  success : Bool
deriving DecidableEq

/-- Source lines 260–323, `deleteFile`, taking `filename` as the object key
already resolved from the URL (lines 262–273).  The existence precheck
always issues the listing request; when it reports false the function
returns `success: false` without touching the delete endpoint.  Otherwise
the signed delete is POSTed; an unparsable body throws
`Failed to parse server response`, a parsed non-2xx response throws
`responseData.error || 'Delete failed'`, and a parsed 2xx response resolves
with `success: true` and `responseData.message || 'File deleted
successfully'` (lines 307–323). -/
def deleteFile (ctx : Ctx) (net : DeleteNet) (bucket filename : String) :
    List Req × Except String DeleteResult :=
  if fileExists net.listing filename then
    let msg := deleteMessage bucket filename
    let req := Req.objectDelete msg (ctx.sign msg)
    match net.delete with
    | DeleteServerResponse.badBody =>
        ([Req.objectList, req], Except.error "Failed to parse server response")
    | DeleteServerResponse.parsed ok err msg =>
        if ok then
          ([Req.objectList, req],
           Except.ok ⟨msg.getD "File deleted successfully", true⟩)
        else
          ([Req.objectList, req], Except.error (err.getD "Delete failed"))
  else
    ([Req.objectList],
     Except.ok ⟨"File does not exist or has already been deleted", false⟩)

/-- The CLI caller (repository file importing `@shdwdrive/sdk`): the folder
option is cleaned with `.replace(/^\/+|\/+$/g, '')`, which strips the
leading run and the trailing run of slashes.  Modelled on the character
list. -/
def stripEdgeSlashes (cs : List Char) : List Char :=
  ((cs.dropWhile fun c => c = '/').reverse.dropWhile fun c => c = '/').reverse

/-- The CLI caller's second clean-up step `.replace(/\/+/g, '/')`: every
maximal run of slashes becomes a single slash.  Structurally: a slash
immediately followed by the slash that starts the already-collapsed tail is
dropped. -/
def collapseSlashes : List Char → List Char
  | [] => []
  | c :: rest =>
    match collapseSlashes rest with
    | [] => [c]
    | d :: tail =>
        if c = '/' ∧ d = '/' then d :: tail else c :: d :: tail

/-- The repository's directory clean-up, from the CLI upload command:
`folder.replace(/^\/+|\/+$/g, '').replace(/\/+/g, '/')`.  The SDK's own
`uploadFile` (the `src/sdk/shdw-drive.ts` under verification) accepts no
directory option and performs no such step. -/
def normalizeDirectory (s : String) : String :=
  String.mk (collapseSlashes (stripEdgeSlashes s.toList))

/-- The form-field names carried by a request (empty for non-form requests). -/
def formFieldNames : Req → List String
  | Req.objectUpload _ form => form.map Prod.fst
  | _ => []

/-! ### Concrete instances used to evaluate the model -/

/-- A concrete collaborator record: deterministic stand-ins for the hash,
signature and public key. -/
def ctx0 : Ctx := ⟨fun s => "H:" ++ s, fun s => "SIG:" ++ s, "PKEY"⟩

/-- A 1-byte file. -/
def xFile : File := ⟨"x.txt", 1, [42]⟩

/-- A file with the same name as `xFile` but different bytes. -/
def yFile : File := ⟨"x.txt", 2, [1, 2]⟩

/-- A file one byte over the 5 MiB threshold. -/
def bigFile : File :=
  ⟨"big.bin", 5 * 1024 * 1024 + 1, List.replicate (5 * 1024 * 1024 + 1) 0⟩

/-- A 12 MiB file. -/
def f12 : File :=
  ⟨"video.mp4", 12 * 1024 * 1024, List.replicate (12 * 1024 * 1024) 0⟩

/-- A multipart server that accepts every call. -/
def allOkNet : MultipartNet :=
  ⟨some ("uid", "key"), none, fun _ => some "etag", some "loc", none⟩

/-- An upload server that accepts everything. -/
def bigUploadNet : UploadNet := ⟨HttpOutcome.ok "loc", allOkNet⟩

/-- An upload server whose single-object endpoint rejects the request. -/
def failUploadNet : UploadNet :=
  ⟨HttpOutcome.fail "Upload failed", ⟨none, none, fun _ => none, none, none⟩⟩

/-- A delete-flow server whose listing call returns non-2xx. -/
def absentNet : DeleteNet := ⟨ListResponse.notOk, DeleteServerResponse.badBody⟩

/-- A delete-flow server whose listing finds the key but whose delete call
answers with an unparsable body. -/
def absentExistsNet : DeleteNet :=
  ⟨ListResponse.objects (some ["f.txt"]), DeleteServerResponse.badBody⟩

/-- A delete-flow server whose listing finds the key and whose delete call
answers 2xx with a parsed body reporting an unsuccessful operation in its
`message` field. -/
def cexDeleteNet : DeleteNet :=
  ⟨ListResponse.objects (some ["f.txt"]),
   DeleteServerResponse.parsed true none (some "Delete operation failed")⟩

/-! ### Arithmetic facts about `totalParts` -/

lemma CHUNK_SIZE_pos : 0 < CHUNK_SIZE := by norm_num [CHUNK_SIZE]

lemma totalParts_pos {size : Nat} (h : 0 < size) : 0 < totalParts size := by
  simp only [totalParts, CHUNK_SIZE] at *
  omega

lemma size_le_totalParts_mul (size : Nat) : size ≤ totalParts size * CHUNK_SIZE := by
  simp only [totalParts, CHUNK_SIZE]
  omega

lemma pred_totalParts_mul_lt {size : Nat} (h : 0 < size) :
    (totalParts size - 1) * CHUNK_SIZE < size := by
  simp only [totalParts, CHUNK_SIZE] at *
  omega

/-! ### The chunk decomposition -/

lemma partChunk_eq_drop_take (f : File) (hsz : f.size = f.content.length)
    (p : Nat) :
    partChunk f p = (f.content.drop ((p - 1) * CHUNK_SIZE)).take CHUNK_SIZE := by
  simp only [partChunk]
  rcases le_or_lt ((p - 1) * CHUNK_SIZE + CHUNK_SIZE) f.size with h | h
  · rw [min_eq_left h, List.drop_take]
    congr 1
    omega
  · rw [min_eq_right (le_of_lt h), hsz, List.take_length]
    refine (List.take_of_length_le ?_).symm
    rw [List.length_drop]
    simp only [CHUNK_SIZE] at h hsz ⊢
    omega

lemma partChunk_length_of_lt (f : File) (hsz : f.size = f.content.length)
    {p : Nat} (hp1 : 1 ≤ p) (hplt : p < totalParts f.size) :
    (partChunk f p).length = CHUNK_SIZE := by
  rw [partChunk_eq_drop_take f hsz, List.length_take, List.length_drop]
  have h := @pred_totalParts_mul_lt f.size
      (by simp only [totalParts, CHUNK_SIZE] at hplt ⊢; omega)
  simp only [totalParts, CHUNK_SIZE] at *
  omega

lemma partChunk_length_last (f : File) (hsz : f.size = f.content.length)
    (hpos : 0 < f.size) :
    (partChunk f (totalParts f.size)).length
      = f.size - (totalParts f.size - 1) * CHUNK_SIZE := by
  rw [partChunk_eq_drop_take f hsz, List.length_take, List.length_drop]
  have h1 := size_le_totalParts_mul f.size
  have h2 := pred_totalParts_mul_lt hpos
  simp only [totalParts, CHUNK_SIZE] at *
  omega

lemma flatten_fixed_chunks {α : Type} (C : Nat) (n : Nat) :
    ∀ l : List α,
      ((List.range n).map fun i => (l.drop (i * C)).take C).flatten
        = l.take (n * C) := by
  induction n with
  | zero => intro l; simp
  | succ n ih =>
    intro l
    rw [List.range_succ, List.map_append, List.flatten_append, ih]
    simp only [List.map_cons, List.map_nil, List.flatten_cons, List.flatten_nil,
      List.append_nil]
    rw [← List.take_add]
    congr 1
    ring

lemma flatten_partChunks (f : File) (hsz : f.size = f.content.length) :
    ((List.range' 1 (totalParts f.size)).map (partChunk f)).flatten
      = f.content := by
  have hmap : (List.range' 1 (totalParts f.size)).map (partChunk f)
      = (List.range (totalParts f.size)).map
          fun i => (f.content.drop (i * CHUNK_SIZE)).take CHUNK_SIZE := by
    rw [List.range'_eq_map_range, List.map_map]
    refine List.map_congr_left fun i _ => ?_
    simp only [Function.comp]
    rw [partChunk_eq_drop_take f hsz]
    have h1 : 1 + i - 1 = i := by omega
    rw [h1]
  rw [hmap, flatten_fixed_chunks]
  refine List.take_of_length_le ?_
  rw [← hsz]
  exact size_le_totalParts_mul f.size

/-! ### The part-upload loop when every part succeeds -/

lemma uploadParts_success (net : MultipartNet) (f : File) (total : Nat) :
    ∀ ps : List Nat, (∀ p ∈ ps, (net.part p).isSome) →
      (uploadParts net f total ps).1
          = ps.map (fun p => Req.uploadPart p (partChunk f p))
      ∧ (uploadParts net f total ps).2.1
          = ps.map (fun p : Nat => (p : ℚ) / (total : ℚ) * 90)
      ∧ ∃ parts, (uploadParts net f total ps).2.2 = Except.ok parts
          ∧ parts.map Prod.snd = ps := by
  intro ps
  induction ps with
  | nil => intro _; exact ⟨rfl, rfl, [], rfl, rfl⟩
  | cons p rest ih =>
    intro hall
    obtain ⟨etag, hp⟩ := Option.isSome_iff_exists.mp
      (hall p (List.mem_cons_self p rest))
    obtain ⟨h1, h2, parts, h3, h4⟩ :=
      ih fun q hq => hall q (List.mem_cons_of_mem p hq)
    refine ⟨?_, ?_, (etag, p) :: parts, ?_, ?_⟩
    · simp only [uploadParts, hp, List.map_cons]
      exact congrArg _ h1
    · simp only [uploadParts, hp, List.map_cons]
      exact congrArg _ h2
    · simp only [uploadParts, hp, h3]
    · simp only [List.map_cons, h4]

/-! ### Request-trace projections -/

lemma uploadSmallFile_request (ctx : Ctx) (net : HttpOutcome) (bucket : String)
    (f : File) :
    (uploadSmallFile ctx net bucket f).1
      = [Req.objectUpload (smallFileMessage ctx bucket f)
          [("file", FormValue.file f),
           ("message", FormValue.str (ctx.sign (smallFileMessage ctx bucket f))),
           ("signer", FormValue.str ctx.signer),
           ("storage_account", FormValue.str bucket)]] := by
  cases net <;> rfl

lemma uploadFile_requests_eq (ctx : Ctx) (net : UploadNet) (bucket : String)
    (f : File) :
    (uploadFile ctx net bucket f).1
      = (if f.size ≤ CHUNK_SIZE then uploadSmallFile ctx net.small bucket f
         else uploadLargeFile net.large bucket f).1 := by
  simp only [uploadFile]
  rcases hE : (if f.size ≤ CHUNK_SIZE then uploadSmallFile ctx net.small bucket f
      else uploadLargeFile net.large bucket f).2.2 with e | loc <;>
    simp [hE]

/-! ### The claims -/

/-- C3: the single-request path signs exactly
`"shdwDrive Signed Message:\nStorage Account: {bucket}\nUpload file with
hash: {sha256(fileName)}"`, hashing the file NAME only; a second call with
the same bucket and file name (any file bytes, any server behaviour)
produces the byte-identical message — the model has no timestamp or nonce
input at all, so the message is a function of `(bucket, name)` alone. -/
theorem uploadSmallFile_signed_message (ctx : Ctx) (net net' : HttpOutcome)
    (bucket : String) (f f' : File) (hname : f'.name = f.name) :
    (uploadSmallFile ctx net bucket f).1
      = [Req.objectUpload
          ("shdwDrive Signed Message:\nStorage Account: " ++ bucket ++
            "\nUpload file with hash: " ++ ctx.sha256hex f.name)
          [("file", FormValue.file f),
           ("message", FormValue.str (ctx.sign
             ("shdwDrive Signed Message:\nStorage Account: " ++ bucket ++
               "\nUpload file with hash: " ++ ctx.sha256hex f.name))),
           ("signer", FormValue.str ctx.signer),
           ("storage_account", FormValue.str bucket)]]
    ∧ (uploadSmallFile ctx net' bucket f').1
      = [Req.objectUpload
          ("shdwDrive Signed Message:\nStorage Account: " ++ bucket ++
            "\nUpload file with hash: " ++ ctx.sha256hex f.name)
          [("file", FormValue.file f'),
           ("message", FormValue.str (ctx.sign
             ("shdwDrive Signed Message:\nStorage Account: " ++ bucket ++
               "\nUpload file with hash: " ++ ctx.sha256hex f.name))),
           ("signer", FormValue.str ctx.signer),
           ("storage_account", FormValue.str bucket)]] := by
  have hmsg : smallFileMessage ctx bucket f'
      = "shdwDrive Signed Message:\nStorage Account: " ++ bucket ++
          "\nUpload file with hash: " ++ ctx.sha256hex f.name := by
    rw [smallFileMessage, hname]
  constructor
  · exact uploadSmallFile_request ctx net bucket f
  · rw [uploadSmallFile_request, hmsg]

/-- Witness for C3 at concrete inputs: `yFile` has the same name as `xFile`
but different bytes, and the emitted message is the `xFile` one. -/
theorem uploadSmallFile_signed_message_witness :
    yFile.name = xFile.name
    ∧ (uploadSmallFile ctx0 (HttpOutcome.ok "loc") "B" yFile).1
      = [Req.objectUpload
          ("shdwDrive Signed Message:\nStorage Account: " ++ "B" ++
            "\nUpload file with hash: " ++ ctx0.sha256hex xFile.name)
          [("file", FormValue.file yFile),
           ("message", FormValue.str (ctx0.sign
             ("shdwDrive Signed Message:\nStorage Account: " ++ "B" ++
               "\nUpload file with hash: " ++ ctx0.sha256hex xFile.name))),
           ("signer", FormValue.str ctx0.signer),
           ("storage_account", FormValue.str "B")]] :=
  ⟨rfl, (uploadSmallFile_signed_message ctx0 (HttpOutcome.ok "loc")
    (HttpOutcome.ok "loc") "B" xFile yFile rfl).2⟩

/-- C4 (code-bug evidence): the repository's directory clean-up (which lives
in the CLI caller, not the SDK) maps `"/a//b/"` to `"a/b"` and `""` to `""`,
but the SDK's single-request form has exactly the fields
`file, message, signer, storage_account` — `uploadFile` accepts no directory
option and no `directory` field is ever POSTed. -/
theorem uploadFile_directory_never_sent :
    normalizeDirectory "/a//b/" = "a/b"
    ∧ normalizeDirectory "" = ""
    ∧ ((uploadSmallFile ctx0 (HttpOutcome.ok "loc") "B" xFile).1.map
        formFieldNames)
      = [["file", "message", "signer", "storage_account"]]
    ∧ "directory" ∉ (["file", "message", "signer", "storage_account"] :
        List String) := by
  refine ⟨by decide, by decide, rfl, by decide⟩

/-- C5: when the existence precheck reports false, `deleteFile` resolves
(never throws) with `success: false` and the fixed message, and the delete
endpoint is never contacted (the trace holds only the listing request);
with the same server behaviour a repeated call returns the same value. -/
theorem deleteFile_absent_noop (ctx : Ctx) (net : DeleteNet)
    (bucket filename : String)
    (h : fileExists net.listing filename = false) :
    deleteFile ctx net bucket filename
      = ([Req.objectList],
         Except.ok ⟨"File does not exist or has already been deleted", false⟩) := by
  simp [deleteFile, h]

/-- Witness for C5: a non-2xx listing. -/
theorem deleteFile_absent_noop_witness :
    fileExists absentNet.listing "f.txt" = false
    ∧ deleteFile ctx0 absentNet "B" "f.txt"
      = ([Req.objectList],
         Except.ok ⟨"File does not exist or has already been deleted", false⟩) :=
  ⟨rfl, deleteFile_absent_noop ctx0 absentNet "B" "f.txt" rfl⟩

/-- C6 (amended): with the precheck succeeding, an unparsable delete body
throws `Failed to parse server response`; a parsed non-2xx response throws
`error || 'Delete failed'`; a parsed 2xx response resolves with
`success: true` whatever its body says — the code never returns
`success: false` from a parsed delete response. -/
theorem deleteFile_delete_response_cases (ctx : Ctx) (net : DeleteNet)
    (bucket filename : String)
    (hex : fileExists net.listing filename = true) :
    (net.delete = DeleteServerResponse.badBody →
      (deleteFile ctx net bucket filename).2
        = Except.error "Failed to parse server response")
    ∧ (∀ err msg, net.delete = DeleteServerResponse.parsed false err msg →
      (deleteFile ctx net bucket filename).2
        = Except.error (err.getD "Delete failed"))
    ∧ (∀ err msg, net.delete = DeleteServerResponse.parsed true err msg →
      (deleteFile ctx net bucket filename).2
        = Except.ok ⟨msg.getD "File deleted successfully", true⟩) := by
  refine ⟨fun hd => ?_, fun err msg hd => ?_, fun err msg hd => ?_⟩ <;>
    simp [deleteFile, hex, hd]

/-- Witness for C6's amended statement: listing finds the key and the delete
body is unparsable. -/
theorem deleteFile_delete_response_cases_witness :
    fileExists (ListResponse.objects (some ["f.txt"])) "f.txt" = true
    ∧ (deleteFile ctx0 absentExistsNet "B" "f.txt").2
      = Except.error "Failed to parse server response" :=
  ⟨rfl, (deleteFile_delete_response_cases ctx0 absentExistsNet "B" "f.txt"
    rfl).1 rfl⟩

/-- Counterexample to C6 as stated: the delete response parses (2xx) and its
body reports an unsuccessful operation (`message: "Delete operation
failed"`), yet `deleteFile` returns `success: true`, not `success: false`. -/
theorem deleteFile_parsed_unsuccessful_cex :
    (deleteFile ctx0 cexDeleteNet "B" "f.txt").2
      = Except.ok ⟨"Delete operation failed", true⟩
    ∧ (deleteFile ctx0 cexDeleteNet "B" "f.txt").2
      ≠ Except.ok ⟨"Delete operation failed", false⟩ := by
  have h1 : (deleteFile ctx0 cexDeleteNet "B" "f.txt").2
      = Except.ok ⟨"Delete operation failed", true⟩ := rfl
  refine ⟨h1, fun hc => ?_⟩
  rw [h1] at hc
  simp at hc

/-- C7: the precheck reports existence exactly for a parsed 2xx listing
whose `objects` contain an entry whose key equals the resolved filename;
a thrown fetch, a non-2xx response, an unparsable body and a body without
an `objects` array all yield `false` (the `try/catch` makes the function
total — no exception escapes). -/
theorem fileExists_reports_only_match (resp : ListResponse)
    (filename : String) :
    (fileExists resp filename = true
      ↔ ∃ keys, resp = ListResponse.objects (some keys) ∧ filename ∈ keys)
    ∧ fileExists ListResponse.netError filename = false
    ∧ fileExists ListResponse.notOk filename = false
    ∧ fileExists ListResponse.badBody filename = false
    ∧ fileExists (ListResponse.objects none) filename = false := by
  refine ⟨⟨?_, ?_⟩, rfl, rfl, rfl, rfl⟩
  · intro h
    cases resp with
    | netError => simp [fileExists] at h
    | notOk => simp [fileExists] at h
    | badBody => simp [fileExists] at h
    | objects objs =>
      cases objs with
      | none => simp [fileExists] at h
      | some keys =>
        refine ⟨keys, rfl, ?_⟩
        simpa [fileExists] using h
  · rintro ⟨keys, rfl, hmem⟩
    simp [fileExists, hmem]

/-- C10: every progress event `uploadFile` delivers has status `uploading`
or `error`; none ever has status `complete`, although the
`FileUploadProgress` type declares it. -/
theorem uploadFile_events_never_complete (ctx : Ctx) (net : UploadNet)
    (bucket : String) (f : File) :
    ∀ ev ∈ (uploadFile ctx net bucket f).2.1,
      (ev.status = Status.uploading ∨ ev.status = Status.error)
      ∧ ev.status ≠ Status.complete := by
  intro ev hev
  simp only [uploadFile] at hev
  rcases hE : (if f.size ≤ CHUNK_SIZE then uploadSmallFile ctx net.small bucket f
      else uploadLargeFile net.large bucket f).2.2 with e | loc
  · rw [hE] at hev
    simp only [List.mem_append] at hev
    rcases hev with h | h
    · obtain ⟨p, _, rfl⟩ := List.mem_map.mp h
      exact ⟨Or.inl rfl, fun hc => Status.noConfusion hc⟩
    · rw [List.mem_singleton] at h
      subst h
      exact ⟨Or.inr rfl, fun hc => Status.noConfusion hc⟩
  · rw [hE] at hev
    obtain ⟨p, _, rfl⟩ := List.mem_map.mp hev
    exact ⟨Or.inl rfl, fun hc => Status.noConfusion hc⟩

/-- Witness for C10: the terminal error event of a failed small upload. -/
theorem uploadFile_events_never_complete_witness :
    ((⟨Status.error, 0⟩ : FileUploadProgress)
        ∈ (uploadFile ctx0 failUploadNet "B" xFile).2.1)
    ∧ (((⟨Status.error, 0⟩ : FileUploadProgress).status = Status.uploading
        ∨ (⟨Status.error, 0⟩ : FileUploadProgress).status = Status.error)
      ∧ (⟨Status.error, 0⟩ : FileUploadProgress).status ≠ Status.complete) := by
  have hmem : (⟨Status.error, 0⟩ : FileUploadProgress)
      ∈ (uploadFile ctx0 failUploadNet "B" xFile).2.1 :=
    List.mem_singleton.mpr rfl
  exact ⟨hmem,
    uploadFile_events_never_complete ctx0 failUploadNet "B" xFile _ hmem⟩

/-- C8: whenever `uploadFile` rethrows an error, its event trace is a block
of `uploading` events followed by exactly one terminal
`status: 'error', progress: 0` event, which is the last event delivered. -/
theorem uploadFile_failure_single_error_event (ctx : Ctx) (net : UploadNet)
    (bucket : String) (f : File) (e : String)
    (h : (uploadFile ctx net bucket f).2.2 = Except.error e) :
    ∃ before,
      (uploadFile ctx net bucket f).2.1 = before ++ [⟨Status.error, 0⟩]
      ∧ (∀ ev ∈ before, ev.status = Status.uploading)
      ∧ ((uploadFile ctx net bucket f).2.1.countP
          fun ev => decide (ev.status = Status.error)) = 1 := by
  rcases hE : (if f.size ≤ CHUNK_SIZE then uploadSmallFile ctx net.small bucket f
      else uploadLargeFile net.large bucket f).2.2 with e' | loc
  · refine ⟨(if f.size ≤ CHUNK_SIZE then uploadSmallFile ctx net.small bucket f
        else uploadLargeFile net.large bucket f).2.1.map
          fun p => ⟨Status.uploading, p⟩, ?_, ?_, ?_⟩
    · simp only [uploadFile, hE]
    · intro ev hev
      obtain ⟨p, _, rfl⟩ := List.mem_map.mp hev
      rfl
    · simp only [uploadFile, hE, List.countP_append, List.countP_map]
      rw [List.countP_eq_zero.mpr fun a _ => by simp [Function.comp]]
      rfl
  · exfalso
    simp only [uploadFile, hE] at h
    exact Except.noConfusion h

/-- Witness for C8: a rejected small upload yields the single event
`(error, 0)`. -/
theorem uploadFile_failure_single_error_event_witness :
    (uploadFile ctx0 failUploadNet "B" xFile).2.2
      = Except.error "Upload failed"
    ∧ ∃ before,
      (uploadFile ctx0 failUploadNet "B" xFile).2.1
          = before ++ [⟨Status.error, 0⟩]
      ∧ (∀ ev ∈ before, ev.status = Status.uploading)
      ∧ ((uploadFile ctx0 failUploadNet "B" xFile).2.1.countP
          fun ev => decide (ev.status = Status.error)) = 1 :=
  ⟨rfl, uploadFile_failure_single_error_event ctx0 failUploadNet "B" xFile
    "Upload failed" rfl⟩

/-- C1: a file of size `≤ 5 MiB` (5 × 1024 × 1024 bytes, exact) is uploaded
with exactly one POST to the single-object endpoint; a larger file, when
every call succeeds, takes `1 + ceil(size / 5 MiB) + 1` network calls
(init, one per part, complete), with `totalParts` the exact ceiling
division. -/
theorem uploadFile_network_calls (ctx : Ctx) (net : UploadNet)
    (bucket : String) (f : File) :
    (f.size ≤ CHUNK_SIZE →
      ∃ m form, (uploadFile ctx net bucket f).1 = [Req.objectUpload m form])
    ∧ (CHUNK_SIZE < f.size →
      net.large.create.isSome →
      (∀ p, 1 ≤ p → p ≤ totalParts f.size → (net.large.part p).isSome) →
      net.large.complete.isSome →
      (uploadFile ctx net bucket f).1.length = 1 + totalParts f.size + 1) := by
  constructor
  · intro hle
    rw [uploadFile_requests_eq, if_pos hle, uploadSmallFile_request]
    exact ⟨_, _, rfl⟩
  · intro hgt hcr hp hcm
    obtain ⟨idKey, hc⟩ := Option.isSome_iff_exists.mp hcr
    obtain ⟨loc, hcomp⟩ := Option.isSome_iff_exists.mp hcm
    have hps : ∀ q ∈ List.range' 1 (totalParts f.size),
        (net.large.part q).isSome := by
      intro q hq
      rw [List.mem_range'] at hq
      obtain ⟨i, hi, rfl⟩ := hq
      exact hp _ (by omega) (by omega)
    obtain ⟨h1, h2, parts, hok, hsnd⟩ :=
      uploadParts_success net.large f (totalParts f.size) _ hps
    rw [uploadFile_requests_eq, if_neg (not_le.mpr hgt)]
    simp only [uploadLargeFile]
    revert h1 hok
    generalize totalParts f.size = t
    intro h1 hok
    rw [hc, hok, hcomp]
    show (Req.multipartCreate (initMessage bucket f) ::
        (uploadParts net.large f t (List.range' 1 t)).1
        ++ [Req.multipartComplete parts]).length = 1 + t + 1
    rw [h1]
    have hmapLen : (List.map (fun p => Req.uploadPart p (partChunk f p))
        (List.range' 1 t)).length = t := by
      rw [List.length_map, List.length_range']
    have hone : ([Req.multipartComplete parts] : List Req).length = 1 := rfl
    rw [List.length_append, List.length_cons, hmapLen, hone]
    omega

/-- Witness for C1: a 1-byte file takes the single-request path; a file of
5 MiB + 1 bytes against an all-accepting server takes `1 + totalParts + 1`
calls. -/
theorem uploadFile_network_calls_witness :
    (xFile.size ≤ CHUNK_SIZE
      ∧ ∃ m form,
          (uploadFile ctx0 bigUploadNet "B" xFile).1 = [Req.objectUpload m form])
    ∧ (CHUNK_SIZE < bigFile.size
      ∧ (uploadFile ctx0 bigUploadNet "B" bigFile).1.length
          = 1 + totalParts bigFile.size + 1) :=
  ⟨⟨by decide,
    (uploadFile_network_calls ctx0 bigUploadNet "B" xFile).1 (by decide)⟩,
   ⟨by decide,
    (uploadFile_network_calls ctx0 bigUploadNet "B" bigFile).2 (by decide)
       rfl (fun _ _ _ => rfl) rfl⟩⟩

/-- C2: in the multipart path the parts are numbered exactly
`1..totalParts` in ascending upload order with no gaps or repeats, every
part except the last covers exactly 5 MiB, the last covers the remainder,
and the concatenation of all part byte ranges is the original file bytes. -/
theorem multipart_part_partition (net : MultipartNet) (f : File)
    (hsz : f.size = f.content.length) (hbig : CHUNK_SIZE < f.size)
    (hparts : ∀ p, 1 ≤ p → p ≤ totalParts f.size → (net.part p).isSome) :
    (uploadParts net f (totalParts f.size)
        (List.range' 1 (totalParts f.size))).1
      = (List.range' 1 (totalParts f.size)).map
          (fun p => Req.uploadPart p (partChunk f p))
    ∧ (∃ parts,
        (uploadParts net f (totalParts f.size)
            (List.range' 1 (totalParts f.size))).2.2 = Except.ok parts
        ∧ parts.map Prod.snd = List.range' 1 (totalParts f.size))
    ∧ (∀ p, 1 ≤ p → p < totalParts f.size →
        (partChunk f p).length = CHUNK_SIZE)
    ∧ (partChunk f (totalParts f.size)).length
        = f.size - (totalParts f.size - 1) * CHUNK_SIZE
    ∧ ((List.range' 1 (totalParts f.size)).map (partChunk f)).flatten
        = f.content := by
  have hps : ∀ q ∈ List.range' 1 (totalParts f.size), (net.part q).isSome := by
    intro q hq
    rw [List.mem_range'] at hq
    obtain ⟨i, hi, rfl⟩ := hq
    exact hparts _ (by omega) (by omega)
  obtain ⟨h1, h2, parts, hok, hsnd⟩ :=
    uploadParts_success net f (totalParts f.size) _ hps
  have hpos : 0 < f.size := lt_of_le_of_lt (Nat.zero_le _) hbig
  exact ⟨h1, ⟨parts, hok, hsnd⟩,
    fun p hp1 hp2 => partChunk_length_of_lt f hsz hp1 hp2,
    partChunk_length_last f hsz hpos, flatten_partChunks f hsz⟩

/-- Witness for C2: the 5 MiB + 1 file (two parts) against the
all-accepting server; the chunk concatenation reassembles the content. -/
theorem multipart_part_partition_witness :
    bigFile.size = bigFile.content.length
    ∧ CHUNK_SIZE < bigFile.size
    ∧ ((List.range' 1 (totalParts bigFile.size)).map (partChunk bigFile)).flatten
        = bigFile.content := by
  have hsz : bigFile.size = bigFile.content.length :=
    (List.length_replicate _ _).symm
  exact ⟨hsz, by decide,
    (multipart_part_partition allOkNet bigFile hsz (by decide)
      (fun _ _ _ => rfl)).2.2.2.2⟩

/-- C9: in a fully successful multipart upload the progress values are
exactly `(partNumber / totalParts) * 90` after each part in ascending
order, then `100` after completion, and the sequence is strictly
increasing. -/
theorem uploadLargeFile_progress_sequence (net : MultipartNet)
    (bucket : String) (f : File) (hbig : CHUNK_SIZE < f.size)
    (hcr : net.create.isSome)
    (hparts : ∀ p, 1 ≤ p → p ≤ totalParts f.size → (net.part p).isSome)
    (hcm : net.complete.isSome) :
    (uploadLargeFile net bucket f).2.1
      = ((List.range' 1 (totalParts f.size)).map
          fun p : Nat => (p : ℚ) / (totalParts f.size : ℚ) * 90) ++ [100]
    ∧ List.Chain' (· < ·) (uploadLargeFile net bucket f).2.1 := by
  obtain ⟨idKey, hc⟩ := Option.isSome_iff_exists.mp hcr
  obtain ⟨loc, hcomp⟩ := Option.isSome_iff_exists.mp hcm
  have hps : ∀ q ∈ List.range' 1 (totalParts f.size), (net.part q).isSome := by
    intro q hq
    rw [List.mem_range'] at hq
    obtain ⟨i, hi, rfl⟩ := hq
    exact hparts _ (by omega) (by omega)
  obtain ⟨h1, h2, parts, hok, hsnd⟩ :=
    uploadParts_success net f (totalParts f.size) _ hps
  have ht : 0 < totalParts f.size :=
    totalParts_pos (lt_of_le_of_lt (Nat.zero_le _) hbig)
  have htQ : (0 : ℚ) < (totalParts f.size : ℚ) := by exact_mod_cast ht
  have hEq : (uploadLargeFile net bucket f).2.1
      = ((List.range' 1 (totalParts f.size)).map
          fun p : Nat => (p : ℚ) / (totalParts f.size : ℚ) * 90) ++ [100] := by
    simp only [uploadLargeFile]
    revert h2 hok
    generalize totalParts f.size = t
    intro h2 hok
    rw [hc, hok, hcomp]
    show (uploadParts net f t (List.range' 1 t)).2.1 ++ [100]
        = ((List.range' 1 t).map
            fun p : Nat => (p : ℚ) / (t : ℚ) * 90) ++ [100]
    rw [h2]
  refine ⟨hEq, ?_⟩
  rw [hEq, List.chain'_append]
  refine ⟨?_, List.chain'_singleton _, ?_⟩
  · rw [List.chain'_map]
    refine ((List.pairwise_lt_range' 1 (totalParts f.size)).imp ?_).chain'
    intro a b hab
    have hab' : (a : ℚ) < (b : ℚ) := by exact_mod_cast hab
    exact mul_lt_mul_of_pos_right (div_lt_div_of_pos_right hab' htQ)
      (by norm_num)
  · intro x hx y hy
    simp only [List.getLast?_map, List.getLast?_range',
      if_neg (Nat.pos_iff_ne_zero.mp ht)] at hx
    simp only [List.head?_cons, Option.mem_def, Option.some.injEq] at hy
    subst hy
    have h1t : 1 + totalParts f.size - 1 = totalParts f.size := by omega
    rw [h1t] at hx
    simp only [Option.map_some', Option.mem_def, Option.some.injEq] at hx
    subst hx
    rw [div_self (ne_of_gt htQ)]
    norm_num

/-- Witness for C9: a 12 MiB file splits into 3 parts and an all-accepting
server yields the progress sequence `30, 60, 90, 100`. -/
theorem uploadLargeFile_progress_sequence_witness :
    CHUNK_SIZE < f12.size
    ∧ totalParts f12.size = 3
    ∧ (uploadLargeFile allOkNet "B" f12).2.1 = [30, 60, 90, 100] := by
  have h := uploadLargeFile_progress_sequence allOkNet "B" f12 (by decide)
    rfl (fun _ _ _ => rfl) rfl
  have h3 : totalParts f12.size = 3 := by decide
  refine ⟨by decide, h3, ?_⟩
  rw [h.1, h3]
  norm_num [List.range']

end ShdwDrive
